import Mathlib

/-!
Shallow embedding of the GenAIDataRepository sources and proofs about them.

Embedded sources:
* `src/api/v1/dependency_resolver.py` — class `DependencyResolver`
  (namespace `DepResolver` below): JSON configuration documents, the
  deep-merge `_merge_config` (with and without the `source_map` provenance
  argument), the inheritance walk `_build_dependency_tree`, and
  `get_dependencies`.
* `src/python/slicer_config/simple.py` — classes `RepoClient` and
  `RepositoryManager` (namespace `SlicerClient` below): `_verify_checksum`,
  `update` / `_process_manifest`, `download_profile`, `find_profile_by_name`
  and `find_profile`.

External collaborators (network fetches, gnupg, hashlib, the file system)
are passed in as explicit inputs or function parameters, following the
interface the Python code uses.  Python dictionaries are modelled as
association lists in insertion order with unique keys; Python sets as lists
used only through membership and add-if-absent.
-/

namespace DepResolver

/-- JSON-like values as produced by `json.load`; objects keep insertion
order, as Python dicts do. -/
inductive JValue where
  | num (n : Int)
  | str (s : String)
  | jbool (b : Bool)
  | null
  | arr (xs : List JValue)
  | obj (fields : List (String × JValue))

/-- The field list of a JSON object. -/
abbrev JFields := List (String × JValue)

end DepResolver

/-- Python dict lookup `d.get(k)`: first match in insertion order (keys are
unique in a Python dict, so first match is the only match). -/
def aget {α : Type} : List (String × α) → String → Option α
  | [], _ => none
  | (k', v') :: rest, k => if k' = k then some v' else aget rest k

/-- Python dict assignment `d[k] = v`: replace the value in place if the key
exists (insertion order kept), otherwise append the new key at the end. -/
def aset {α : Type} : List (String × α) → String → α → List (String × α)
  | [], k, v => [(k, v)]
  | (k', v') :: rest, k, v =>
      if k' = k then (k', v) :: rest else (k', v') :: aset rest k v

namespace DepResolver

mutual

/-- The per-key decision of `DependencyResolver._merge_config` (no source
map): if the incoming value and the accumulator value under the same key are
both dicts, merge them recursively; otherwise the incoming value replaces
the accumulator value outright. -/
def mergeVal : Option JValue → JValue → JValue
  | some (JValue.obj tf), JValue.obj sf => JValue.obj (mergeFields tf sf)
  | _, v => v

/-- `DependencyResolver._merge_config(target, source, name, None)`: iterate
over the source document fields in order, updating the (mutated-in-place)
target.  The in-place mutation of `target[key]` is threaded functionally
through `aset`, which preserves the key position exactly as a Python dict
update does. -/
def mergeFields (target : JFields) : JFields → JFields
  | [] => target
  | (k, v) :: rest => mergeFields (aset target k (mergeVal (aget target k) v)) rest

end

end DepResolver

namespace DepResolver

/-- Exceptions that `DependencyResolver._merge_config` can raise when the
`source_map` argument is misused at runtime (Python is dynamically typed, so
these surface only when the offending line executes). -/
inductive MergeErr where
  | typeError       -- str object does not support item assignment
  | attributeError  -- str object has no attribute get
deriving DecidableEq, Repr

/-- A Python value that can flow through the `source_map` parameter of
`_merge_config`.  Starting from `resolve_config`'s initial `{}`, the values
ever stored in a source map are exactly the source-name strings assigned by
`source_map[key] = source_name`, so a map is modelled with `String` values;
the recursive call passes `source_map.get(key, {})`, which is either such a
string or a fresh empty dict.  `none` models Python `None`. -/
inductive PySM where
  | pynone
  | dict (m : List (String × String))
  | str (s : String)
deriving DecidableEq, Repr

/-- Python truthiness of a `source_map` value (`if source_map`). -/
def PySM.truthy : PySM → Bool
  | PySM.pynone => false
  | PySM.dict m => !m.isEmpty
  | PySM.str s => !(s == "")

/-- The argument expression of the recursive `_merge_config` call:
`source_map.get(key, {}) if source_map else None`.  On a truthy string this
raises `AttributeError` (`.get` on a `str`). -/
def smChild (sm : PySM) (k : String) : Except MergeErr PySM :=
  if sm.truthy then
    match sm with
    | PySM.pynone => Except.ok PySM.pynone
    | PySM.dict m =>
        Except.ok (match aget m k with
          | some s => PySM.str s
          | none => PySM.dict [])
    | PySM.str _ => Except.error MergeErr.attributeError
  else Except.ok PySM.pynone

/-- The override branch of `_merge_config`:
`if source_map is not None: source_map[key] = source_name`.  Item assignment
on a string raises `TypeError`. -/
def smAssign (sm : PySM) (k : String) (name : String) : Except MergeErr PySM :=
  match sm with
  | PySM.pynone => Except.ok PySM.pynone
  | PySM.dict m => Except.ok (PySM.dict (aset m k name))
  | PySM.str _ => Except.error MergeErr.typeError

mutual

/-- The body of `_merge_config`'s loop for one `(key, value)` item of the
source document, with the source map threaded explicitly: when both the
incoming value and the target value under the key are dicts, evaluate the
`smChild` argument expression, recurse, and discard the recursion's map
exactly as the source does (the child map is either a fresh `{}` whose
mutations are lost or a string which raises before or at the first
mutation; the parent map itself is never passed down); otherwise override
the target value and run the `smAssign` provenance assignment. -/
def mergeOneSM (name k : String) (target : JFields) (v : JValue) (sm : PySM) :
    Except MergeErr (JFields × PySM) :=
  match v, aget target k with
  | JValue.obj sf, some (JValue.obj tf) =>
      (match smChild sm k with
       | Except.error e => Except.error e
       | Except.ok child =>
         match mergeConfigSM name tf sf child with
         | Except.error e => Except.error e
         | Except.ok (tf', _) => Except.ok (aset target k (JValue.obj tf'), sm))
  | _, _ =>
      (match smAssign sm k name with
       | Except.error e => Except.error e
       | Except.ok sm' => Except.ok (aset target k v, sm'))

/-- `DependencyResolver._merge_config(target, source, source_name, source_map)`:
iterate over the source document items in order, threading the mutated
target and source map and propagating the first exception. -/
def mergeConfigSM (name : String) :
    JFields → JFields → PySM → Except MergeErr (JFields × PySM)
  | target, [], sm => Except.ok (target, sm)
  | target, (k, v) :: rest, sm =>
    match mergeOneSM name k target v sm with
    | Except.error e => Except.error e
    | Except.ok (t', sm') => mergeConfigSM name t' rest sm'

end

/-- The merge phase of `DependencyResolver.resolve_config` with
`include_source_map=True`: starting from `resolved_config = {}` and
`source_map = {}`, merge each `(source_name, document)` in resolution
order. -/
def mergeDocsSM : List (String × JFields) → JFields → PySM →
    Except MergeErr (JFields × PySM)
  | [], target, sm => Except.ok (target, sm)
  | (name, doc) :: rest, target, sm =>
    match mergeConfigSM name target doc sm with
    | Except.error e => Except.error e
    | Except.ok (t', sm') => mergeDocsSM rest t' sm'

/-- `resolve_config`'s merging of an ordered document sequence with
provenance tracking enabled. -/
def resolveMergeSM (docs : List (String × JFields)) :
    Except MergeErr (JFields × PySM) :=
  mergeDocsSM docs [] (PySM.dict [])

end DepResolver

namespace DepResolver

/-- The reserved header of a configuration document used by the walker:
`config["config"]["name"]` and `config["config"].get("inherits")`. -/
structure Config where
  name : String
  inherits : Option String
deriving DecidableEq, Repr

/-- Python truthiness of the `inherits` field: `if not inherits` treats both
a missing key and an empty string as "no parent". -/
def truthyInherits : Option String → Option String
  | some p => if p = "" then none else some p
  | none => none

/-- A node of the `dependency_tree` result: `{"name": ..., "children": [...]}`. -/
inductive DepTree where
  | node (name : String) (children : List DepTree)

/-- Errors of the walk.  `configurationNotFound` is the
`ConfigurationNotFoundError` raised when `_find_and_load_config` returns
`None` for a parent; `fuelExhausted` is an artifact of the embedding only —
the Python recursion always terminates because each level adds a fresh name
to `visited` and every level beyond the first is a record of the finite
store, and `getDependencies` passes fuel exceeding that bound. -/
inductive ResolveErr where
  | configurationNotFound (name : String)
  | fuelExhausted
deriving DecidableEq, Repr

/-- `DependencyResolver._build_dependency_tree`.  The store is the
abstraction of `_find_and_load_config`: the first configuration found for a
name over the conventional search paths, or `none`.  The mutated arguments
(`visited`, `dependencies`, `resolution_order`) are threaded as state in
exactly the source order: the visited check first, then the truthiness check
of `inherits`, then the parent lookup (raising if absent), then
`visited.add`, then the recursion into the parent, then the appends of this
level.  The returned list of trees is the `children` list that the call
leaves in its own `tree_node` (dependency metadata of the entries —
path/from — is dropped; only parent names are kept). -/
def buildDep (store : List (String × Config)) :
    Nat → Config → List String → List String → List String →
    Except ResolveErr (List String × List String × List String × List DepTree)
  | 0, _, _, _, _ => Except.error ResolveErr.fuelExhausted
  | Nat.succ fuel, cfg, visited, deps, order =>
    if cfg.name ∈ visited then
      Except.ok (visited, deps, order, [])
    else
      match truthyInherits cfg.inherits with
      | none =>
          Except.ok (visited, deps,
            (if cfg.name ∈ order then order else order ++ [cfg.name]), [])
      | some parentName =>
          match aget store parentName with
          | none => Except.error (ResolveErr.configurationNotFound parentName)
          | some parentCfg =>
              match buildDep store fuel parentCfg (visited ++ [cfg.name]) deps order with
              | Except.error e => Except.error e
              | Except.ok (v2, d2, o2, parentChildren) =>
                  Except.ok (v2, d2 ++ [parentName],
                    (if cfg.name ∈ o2 then o2 else o2 ++ [cfg.name]),
                    [DepTree.node parentName parentChildren])

/-- The result dictionary of `get_dependencies` (the fields the claims are
about; the path/from metadata of the `target` and `dependencies` entries is
file-system formatting and is dropped). -/
structure DepResult where
  targetName : String
  targetInherits : Option String
  dependencies : List String
  tree : DepTree
  resolution_order : List String
  circular_dependencies : List String

/-- `DependencyResolver.get_dependencies`.  File loading is abstracted: the
target document (already loaded from its explicit path) is given directly
and parents are resolved through the store.  The fuel `store.length + 2`
strictly exceeds the recursion depth: each recursive level first adds a new
name to `visited`, and every configuration beyond the target is a store
record, so a repeated store key repeats a name and stops at the visited
check.  Note the `circular_dependencies` field of the result is the literal
empty list of the source. -/
def getDependencies (store : List (String × Config)) (target : Config) :
    Except ResolveErr DepResult :=
  match buildDep store (store.length + 2) target [] [] [] with
  | Except.error e => Except.error e
  | Except.ok (_, deps, order, children) =>
      Except.ok
        { targetName := target.name
          targetInherits := target.inherits
          dependencies := deps
          tree := DepTree.node target.name children
          resolution_order := order
          circular_dependencies := [] }

/-- The ancestor chain of a configuration in the store: `anc` lists the
ancestors of `cfg` from the immediate parent up to the root, each located by
the store under its own name and each linking to the next by its truthy
`inherits` pointer; the root has no (truthy) parent. -/
def chainFrom (store : List (String × Config)) : Config → List Config → Prop
  | cfg, [] => truthyInherits cfg.inherits = none
  | cfg, p :: rest =>
      truthyInherits cfg.inherits = some p.name ∧
      aget store p.name = some p ∧ chainFrom store p rest

end DepResolver

namespace SlicerClient

/-- Raw bytes (response.content / file content). -/
abbrev Bytes := List Nat

/-- An artifact record of the manifest, with the fields the client reads.
`slicer` is read with `.get` (may be absent); `uuid`, `name`, `path` and
`dependencies` are accessed by subscript in the code paths modelled here. -/
structure Profile where
  uuid : String
  name : String
  slicer : Option String
  path : String
  dependencies : List String
deriving DecidableEq, Repr

/-- A parsed manifest.  `nspace` models the JSON key `namespace` (read with
`.get`, may be absent); `profiles` is `none` when the key is missing —
`_process_manifest` treats that as an invalid manifest; `checksums` is
`manifest.get('checksums', {})`, a mapping from storage path to an
`algorithm:hexdigest` string. -/
structure Manifest where
  nspace : Option String
  profiles : Option (List Profile)
  checksums : List (String × String)
deriving DecidableEq, Repr

/-- The mutable state of a `RepoClient`: `self.manifest` and
`self.profiles_by_uuid`. -/
structure ClientState where
  manifest : Option Manifest
  profiles_by_uuid : List (String × Profile)
deriving DecidableEq, Repr

/-- `RepoClient._process_manifest`: when the manifest is absent or lacks the
`profiles` key it logs an error and returns, leaving the lookup index
unchanged; otherwise it rebuilds the index keyed by uuid (a duplicated uuid
keeps the last record, as in a Python dict comprehension). -/
def processManifest (st : ClientState) : ClientState :=
  match st.manifest with
  | none => st
  | some m =>
    match m.profiles with
    | none => st
    | some ps =>
        { st with profiles_by_uuid := ps.foldl (fun acc p => aset acc p.uuid p) [] }

/-- `RepoClient.update`.  The external collaborators are inputs: `parse` is
`json.loads` (`none` = `JSONDecodeError`), `gpgVerify` the keyring verdict of
`gpg.verify_data(sig, manifest)`, and `manifestBytes`/`sigBytes` the fetch
results (`none` = `requests.RequestException`).  Returns the Python boolean
return value together with the post state.  Source order: fetch manifest,
fetch signature, verify signature, then assign `self.manifest` and run
`_process_manifest`. -/
def update (parse : Bytes → Option Manifest) (gpgVerify : Bytes → Bytes → Bool)
    (manifestBytes sigBytes : Option Bytes) (st : ClientState) :
    Bool × ClientState :=
  match manifestBytes with
  | none => (false, st)
  | some mb =>
    match sigBytes with
    | none => (false, st)
    | some sb =>
      if gpgVerify sb mb then
        match parse mb with
        | none => (false, st)
        | some m => (true, processManifest { st with manifest := some m })
      else (false, st)

end SlicerClient

/-- `s.split(c, 1)` for a one-character separator: the text before the first
occurrence of `c` and everything after it, or `none` when `c` does not occur
(where Python 2-tuple unpacking of the result would raise `ValueError`). -/
def splitFirstAux (c : Char) : List Char → List Char → Option (List Char × List Char)
  | _, [] => none
  | acc, d :: rest =>
      if d = c then some (acc.reverse, rest) else splitFirstAux c (d :: acc) rest

/-- String version of `splitFirstAux` starting from an empty prefix. -/
def splitFirst (c : Char) (s : String) : Option (String × String) :=
  match splitFirstAux c [] s.toList with
  | none => none
  | some (l, r) => some (⟨l⟩, ⟨r⟩)

namespace SlicerClient

/-- Errors of the download loop.  `valueError` is the uncaught `ValueError`
of unpacking `expected_checksum.split(':', 1)` when the checksum string has
no colon; `fuelExhausted` is an embedding artifact for the loop bound (the
Python loop can genuinely diverge on mutually-dependent profiles whose
fetches keep failing, so a fuel parameter is taken explicitly). -/
inductive DLErr where
  | valueError
  | fuelExhausted
deriving DecidableEq, Repr

/-- `RepoClient._verify_checksum`.  `sha256hex` abstracts
`hashlib.sha256(...).hexdigest()`.  An expected checksum whose algorithm tag
is not `sha256` logs a warning, skips verification and returns `True` (the
literal `return True # Or False for stricter security` of the source). -/
def verifyChecksum (sha256hex : Bytes → String) (content : Bytes)
    (expected : String) : Except DLErr Bool :=
  match splitFirst ':' expected with
  | none => Except.error DLErr.valueError
  | some (algo, value) =>
      if algo = "sha256" then Except.ok (sha256hex content = value)
      else Except.ok true

end SlicerClient

namespace SlicerClient

/-- The loop state of `RepoClient.download_profile` plus the ambient file
system.  `queue` is `download_queue` (a Python set; `pop()` removes an
arbitrary element — the embedding determinizes it to the front of an
insertion-ordered duplicate-free list), `processed` is `processed_uuids`,
`files` is `downloaded_files` (destination paths), `disk` is the cache
directory contents, and `verified` is ghost instrumentation recording the
storage path of every `_verify_checksum` call actually made. -/
structure DownloadState where
  queue : List String
  processed : List String
  files : List String
  disk : List (String × Bytes)
  verified : List String
deriving DecidableEq, Repr

/-- `download_queue.add(dep)` for each declared dependency not yet
processed; adding an element already in the set is a no-op. -/
def enqueueDeps (deps : List String) (processed : List String)
    (queue : List String) : List String :=
  deps.foldl (fun q d => if d ∈ processed ∨ d ∈ q then q else q ++ [d]) queue

/-- Outcome of one body iteration of the download loop: an early `return`
out of the function (the checksum-mismatch abort returns the literal `[]`
while the files already written stay on disk), a `continue`/fall-through to
the next iteration, or an uncaught exception. -/
inductive StepOut where
  | ret (retval : List String) (st : DownloadState)
  | next (st : DownloadState)
  | err (e : DLErr)
deriving DecidableEq, Repr

/-- One body iteration of `download_profile`'s loop for a popped `uuid`
(`st.queue` already lacks it).  Faithful source order: the `processed` check,
the index lookup (a missing uuid logs a warning and skips), enqueueing of
declared dependencies, the checksum table lookup by storage path, the fetch
(`none` = `requests.RequestException`, which skips without marking the uuid
processed), the truthiness test of the checksum entry (an empty string skips
verification like a missing entry), verification with abort on mismatch, the
file write, and finally `processed_uuids.add`.  The fetch is keyed by the
profile's storage path (the URL is `urljoin(repo_url, path)`); the
destination is the cache directory joined with the same path. -/
def downloadStep (index : List (String × Profile))
    (checksums : List (String × String)) (fetch : String → Option Bytes)
    (sha256hex : Bytes → String) (cacheDir : String) (uuid : String)
    (st : DownloadState) : StepOut :=
  if uuid ∈ st.processed then StepOut.next st
  else
    match aget index uuid with
    | none => StepOut.next st
    | some profile =>
      let st1 := { st with queue := enqueueDeps profile.dependencies st.processed st.queue }
      let dest := cacheDir ++ "/" ++ profile.path
      match fetch profile.path with
      | none => StepOut.next st1
      | some content =>
        let persist : StepOut := StepOut.next
          { st1 with files := st1.files ++ [dest]
                     disk := aset st1.disk dest content
                     processed := st1.processed ++ [uuid] }
        match aget checksums profile.path with
        | none => persist
        | some expected =>
          if expected = "" then persist
          else
            match verifyChecksum sha256hex content expected with
            | Except.error e => StepOut.err e
            | Except.ok true =>
                StepOut.next
                  { st1 with files := st1.files ++ [dest]
                             disk := aset st1.disk dest content
                             processed := st1.processed ++ [uuid]
                             verified := st1.verified ++ [profile.path] }
            | Except.ok false =>
                StepOut.ret [] { st1 with verified := st1.verified ++ [profile.path] }

/-- The `while download_queue:` loop of `download_profile`, returning the
function's return value (the `downloaded_files` list, or the literal `[]`
of the mismatch abort) together with the final state. -/
def downloadLoop (index : List (String × Profile))
    (checksums : List (String × String)) (fetch : String → Option Bytes)
    (sha256hex : Bytes → String) (cacheDir : String) :
    Nat → DownloadState → Except DLErr (List String × DownloadState)
  | 0, st =>
      (match st.queue with
       | [] => Except.ok (st.files, st)
       | _ :: _ => Except.error DLErr.fuelExhausted)
  | Nat.succ fuel, st =>
    match st.queue with
    | [] => Except.ok (st.files, st)
    | uuid :: rest =>
      match downloadStep index checksums fetch sha256hex cacheDir uuid
          { st with queue := rest } with
      | StepOut.ret retval st' => Except.ok (retval, st')
      | StepOut.err e => Except.error e
      | StepOut.next st' => downloadLoop index checksums fetch sha256hex cacheDir fuel st'

/-- `RepoClient.download_profile(profile_uuid)`: the loop started from the
singleton queue `{profile_uuid}` over an empty cache.  `index` is
`self.profiles_by_uuid` and `checksums` is
`self.manifest.get('checksums', {})`. -/
def downloadProfile (index : List (String × Profile))
    (checksums : List (String × String)) (fetch : String → Option Bytes)
    (sha256hex : Bytes → String) (cacheDir : String) (profile_uuid : String)
    (fuel : Nat) : Except DLErr (List String × DownloadState) :=
  downloadLoop index checksums fetch sha256hex cacheDir fuel
    { queue := [profile_uuid], processed := [], files := [], disk := [], verified := [] }

end SlicerClient

namespace SlicerClient

/-- `RepoClient.find_profile_by_name`: first profile of the manifest whose
`name` equals the query (a manifest without the `profiles` key iterates the
default `[]`). -/
def findProfileByName (m : Manifest) (name : String) : Option Profile :=
  (m.profiles.getD []).find? (fun p => p.name = name)

/-- The namespace-qualified branch of `RepositoryManager.find_profile`:
scan the clients in order and return the first profile found in a client
whose manifest carries the requested namespace, provided its name matches
and its `slicer` tag equals the requested slicer (a non-matching slicer or
name falls through to the next client).  A client whose manifest is absent
contributes nothing.  Comparison of `manifest.get('namespace')` with the
stripped namespace means an absent namespace never matches. -/
def firstQualified : List (Option Manifest) → String → String → String → Option Profile
  | [], _, _, _ => none
  | none :: rest, ns, name, slicer => firstQualified rest ns name slicer
  | some m :: rest, ns, name, slicer =>
      if m.nspace = some ns then
        match findProfileByName m name with
        | some p =>
            if p.slicer = some slicer then some p
            else firstQualified rest ns name slicer
        | none => firstQualified rest ns name slicer
      else firstQualified rest ns name slicer

/-- The unqualified branch's candidate collection: for each client with a
manifest, the first name match whose `slicer` tag equals the requested
slicer, paired with the client manifest's namespace (as read by `.get`, so
possibly absent).  Client order is preserved. -/
def foundProfiles (clients : List (Option Manifest)) (name slicer : String) :
    List (Option String × Profile) :=
  clients.foldl (fun acc c =>
    match c with
    | none => acc
    | some m =>
      match findProfileByName m name with
      | some p => if p.slicer = some slicer then acc ++ [(m.nspace, p)] else acc
      | none => acc) []

/-- `RepositoryManager.find_profile(profile_name, slicer)`.  The lazy
`client.update()` refresh is abstracted: the clients are given with their
current manifests.  Returns the Python return value together with the
printed disambiguation hints, each modelled as the pair
(namespace as printed — an absent namespace prints as `None` —, profile
name) of one `Use namespace/name to install this one` line.  A qualified
`namespace/name` query is detected by the first slash and both halves are
stripped; an unqualified query collects all candidates and returns `None`
both when there is no match and when more than one repository matches. -/
def findProfile (clients : List (Option Manifest)) (profile_name slicer : String) :
    Option Profile × List (String × String) :=
  match splitFirst '/' profile_name with
  | some (nsRaw, nameRaw) =>
      (firstQualified clients nsRaw.trim nameRaw.trim slicer, [])
  | none =>
      match foundProfiles clients profile_name slicer with
      | [] => (none, [])
      | [single] => (some single.2, [])
      | multi => (none, multi.map (fun nr => (nr.1.getD "None", nr.2.name)))

end SlicerClient

section Lemmas

theorem aget_aset_self {α : Type} (l : List (String × α)) (k : String) (v : α) :
    aget (aset l k v) k = some v := by
  induction l with
  | nil => simp [aset, aget]
  | cons hd tl ih =>
    obtain ⟨k', v'⟩ := hd
    by_cases h : k' = k
    · simp [aset, aget, h]
    · simp [aset, aget, h, ih]

theorem aget_aset_ne {α : Type} (l : List (String × α)) {k k' : String} (v : α)
    (h : k' ≠ k) : aget (aset l k' v) k = aget l k := by
  induction l with
  | nil => simp [aset, aget, h]
  | cons hd tl ih =>
    obtain ⟨k'', v''⟩ := hd
    by_cases h2 : k'' = k'
    · subst h2
      simp [aset, aget, h, Ne.symm h]
    · by_cases h3 : k'' = k
      · subst h3
        simp [aset, aget, h2]
      · simp [aset, aget, h2, h3, ih]

theorem aget_mem_keys {α : Type} (l : List (String × α)) {k : String} {v : α}
    (h : aget l k = some v) : k ∈ l.map Prod.fst := by
  induction l with
  | nil => simp [aget] at h
  | cons hd tl ih =>
    obtain ⟨k', v'⟩ := hd
    by_cases h2 : k' = k
    · simp [h2]
    · simp [aget, h2] at h
      simp [ih h]

end Lemmas

namespace DepResolver

theorem mergeFields_aget_of_not_mem (sf : JFields) (tf : JFields) (k : String)
    (h : k ∉ sf.map Prod.fst) : aget (mergeFields tf sf) k = aget tf k := by
  induction sf generalizing tf with
  | nil => simp [mergeFields]
  | cons hd rest ih =>
    obtain ⟨k', v'⟩ := hd
    simp only [List.map_cons, List.mem_cons] at h
    push_neg at h
    rw [mergeFields, ih _ h.2, aget_aset_ne _ _ (fun e => h.1 e.symm)]

theorem mergeFields_aget_of_both (sf : JFields) (tf : JFields) (k : String)
    (tv sv : JValue) (hnd : (sf.map Prod.fst).Nodup)
    (ht : aget tf k = some tv) (hs : aget sf k = some sv) :
    aget (mergeFields tf sf) k = some (mergeVal (some tv) sv) := by
  induction sf generalizing tf with
  | nil => simp [aget] at hs
  | cons hd rest ih =>
    obtain ⟨k', v'⟩ := hd
    simp only [List.map_cons, List.nodup_cons] at hnd
    by_cases h : k' = k
    · subst h
      simp [aget] at hs
      subst hs
      rw [mergeFields, ht, mergeFields_aget_of_not_mem _ _ _ hnd.1,
        aget_aset_self]
    · simp only [aget, if_neg h] at hs
      rw [mergeFields]
      exact ih _ hnd.2 (by rw [aget_aset_ne _ _ h, ht]) hs

end DepResolver

open DepResolver in
/-- C5: deep merge over an ordered document sequence starting from the empty
document.  General law: for a key present in both the accumulator and the
incoming document (whose keys, as a Python dict's, are unique), the merged
value is `mergeVal`: a recursive merge when both values are mappings and the
incoming value outright otherwise.  Concrete cases: merging
`[{a:{x:1,y:2}}, {a:{y:3}}]` yields `{a:{x:1,y:3}}`, and merging
`[{a:{x:1}}, {a:5}]` yields `{a:5}`. -/
theorem merge_config_deep_merge_C5 :
    (∀ (tf sf : JFields) (k : String) (tv sv : JValue),
        (sf.map Prod.fst).Nodup → aget tf k = some tv → aget sf k = some sv →
        aget (mergeFields tf sf) k = some (mergeVal (some tv) sv)) ∧
    mergeFields (mergeFields [] [("a", JValue.obj [("x", JValue.num 1), ("y", JValue.num 2)])])
        [("a", JValue.obj [("y", JValue.num 3)])] =
      [("a", JValue.obj [("x", JValue.num 1), ("y", JValue.num 3)])] ∧
    mergeFields (mergeFields [] [("a", JValue.obj [("x", JValue.num 1)])])
        [("a", JValue.num 5)] = [("a", JValue.num 5)] :=
  ⟨fun _ sf _ _ _ => mergeFields_aget_of_both sf _ _ _ _, rfl, rfl⟩

/-- C5 witness: the general law applied at a concrete overlapping key whose
two values are scalars, so the incoming value replaces the accumulator
value. -/
theorem merge_config_deep_merge_C5_witness :
    aget (DepResolver.mergeFields [("k", DepResolver.JValue.num 1)]
      [("k", DepResolver.JValue.num 2)]) "k" =
      some (DepResolver.mergeVal (some (DepResolver.JValue.num 1)) (DepResolver.JValue.num 2)) :=
  merge_config_deep_merge_C5.1 [("k", DepResolver.JValue.num 1)]
    [("k", DepResolver.JValue.num 2)] "k" _ _ (by simp) rfl rfl

open DepResolver in
/-- C6: merging `{a:{x:1}}` from source `P` and then `{a:{x:2}}` from source
`C` with provenance tracking enabled does not produce a provenance of `C`
for the leaf path `a.x` — it raises `TypeError`: the first merge records the
provenance `{a: "P"}` at whole-key granularity, and the second merge's
recursion receives `source_map.get("a", {})`, the string `"P"`, whose item
assignment fails. -/
theorem resolve_config_provenance_crash_C6 :
    resolveMergeSM
        [("P", [("a", JValue.obj [("x", JValue.num 1)])]),
         ("C", [("a", JValue.obj [("x", JValue.num 2)])])] =
      Except.error MergeErr.typeError := rfl

open DepResolver in
/-- C1: an inheritance chain that closes a cycle does not raise
`CircularDependency` — `get_dependencies` returns a success result whose
`circular_dependencies` field is the always-empty literal.  Evaluated at a
self-inheriting configuration `b` and at the two-cycle `t -> p -> t`: both
return `Except.ok`, with empty `circular_dependencies`. -/
theorem get_dependencies_cycle_silent_success_C1 :
    (match getDependencies [("b", ⟨"b", some "b"⟩)] ⟨"b", some "b"⟩ with
      | Except.ok r => some (r.resolution_order, r.circular_dependencies)
      | Except.error _ => none) = some (["b"], []) ∧
    (match getDependencies [("p", ⟨"p", some "t"⟩), ("t", ⟨"t", some "p"⟩)]
        ⟨"t", some "p"⟩ with
      | Except.ok r => some (r.resolution_order, r.circular_dependencies)
      | Except.error _ => none) = some (["p", "t"], []) :=
  ⟨rfl, rfl⟩

open SlicerClient in
/-- C3: `_verify_checksum` with an expected digest whose algorithm tag is
the unsupported `md5` returns `True` for every hash function and every byte
buffer — the unsupported algorithm is treated as verified, not rejected. -/
theorem verify_checksum_unsupported_algo_accepts_C3 :
    ∀ (sha256hex : Bytes → String) (content : Bytes),
      verifyChecksum sha256hex content "md5:00" = Except.ok true :=
  fun _ _ => rfl

open SlicerClient in
/-- C4: a refresh delivering a validly-signed manifest that parses but lacks
the `profiles` record structure does not leave the previously-verified
manifest in place: `update` stores the malformed manifest over the previous
one, keeps the stale lookup index, and reports success (`True`). -/
theorem update_malformed_manifest_replaces_previous_C4 :
    (update (fun _ => some ⟨none, none, []⟩) (fun _ _ => true)
        (some [0]) (some [1])
        ⟨some ⟨some "N", some [⟨"u", "n", some "s", "p.json", []⟩],
            [("p.json", "sha256:h")]⟩,
         [("u", ⟨"u", "n", some "s", "p.json", []⟩)]⟩ =
      (true,
        ⟨some ⟨none, none, []⟩,
         [("u", ⟨"u", "n", some "s", "p.json", []⟩)]⟩)) ∧
    (some (⟨none, none, []⟩ : Manifest) ≠
      some (⟨some "N", some [⟨"u", "n", some "s", "p.json", []⟩],
        [("p.json", "sha256:h")]⟩ : Manifest)) :=
  ⟨rfl, by decide⟩

namespace DepResolver

theorem chainFrom_mem_store {store : List (String × Config)} :
    ∀ {cfg : Config} {anc : List Config}, chainFrom store cfg anc →
      ∀ p ∈ anc, aget store p.name = some p := by
  intro cfg anc
  induction anc generalizing cfg with
  | nil => intro _ p hp; simp at hp
  | cons q rest ih =>
    intro h p hp
    obtain ⟨-, hget, hchain⟩ := h
    rcases List.mem_cons.mp hp with h1 | h2
    · subst h1; exact hget
    · exact ih hchain p h2

theorem buildDep_chain (store : List (String × Config)) (anc : List Config) :
    ∀ (cfg : Config) (visited deps order : List String) (fuel : Nat),
      chainFrom store cfg anc →
      (cfg.name :: anc.map Config.name).Nodup →
      (∀ n ∈ cfg.name :: anc.map Config.name, n ∉ visited) →
      (∀ n ∈ cfg.name :: anc.map Config.name, n ∉ order) →
      anc.length < fuel →
      ∃ v d t, buildDep store fuel cfg visited deps order =
        Except.ok (v, d, order ++ ((anc.map Config.name).reverse ++ [cfg.name]), t) := by
  induction anc with
  | nil =>
    intro cfg visited deps order fuel hchain hnd hvis hord hfuel
    obtain ⟨fuel, rfl⟩ : ∃ f, fuel = f + 1 :=
      ⟨fuel - 1, (Nat.succ_pred_eq_of_pos hfuel).symm⟩
    have hni : truthyInherits cfg.inherits = none := hchain
    have h1 : cfg.name ∉ visited := hvis cfg.name (List.mem_cons_self _ _)
    have h2 : cfg.name ∉ order := hord cfg.name (List.mem_cons_self _ _)
    refine ⟨visited, deps, [], ?_⟩
    simp [buildDep, if_neg h1, hni, if_neg h2]
  | cons p rest ih =>
    intro cfg visited deps order fuel hchain hnd hvis hord hfuel
    obtain ⟨hinh, hget, hrest⟩ := hchain
    obtain ⟨fuel, rfl⟩ : ∃ f, fuel = f + 1 :=
      ⟨fuel - 1, (Nat.succ_pred_eq_of_pos (Nat.lt_of_le_of_lt (Nat.zero_le _) hfuel)).symm⟩
    simp only [List.map_cons] at hnd hvis hord
    have h1 : cfg.name ∉ visited := hvis cfg.name (List.mem_cons_self _ _)
    obtain ⟨hn1, hnd'⟩ := List.nodup_cons.mp hnd
    have hne1 : cfg.name ≠ p.name :=
      fun e => hn1 (by rw [e]; exact List.mem_cons_self _ _)
    have hne2 : cfg.name ∉ rest.map Config.name :=
      fun e => hn1 (List.mem_cons_of_mem _ e)
    have hvis' : ∀ n ∈ p.name :: rest.map Config.name, n ∉ visited ++ [cfg.name] := by
      intro n hn hmem
      rcases List.mem_append.mp hmem with h | h
      · exact hvis n (List.mem_cons_of_mem _ hn) h
      · have e : n = cfg.name := List.mem_singleton.mp h
        subst e
        rcases List.mem_cons.mp hn with e2 | e2
        · exact hne1 e2
        · exact hne2 e2
    have hord' : ∀ n ∈ p.name :: rest.map Config.name, n ∉ order :=
      fun n hn => hord n (List.mem_cons_of_mem _ hn)
    obtain ⟨v2, d2, t2, heq⟩ :=
      ih p (visited ++ [cfg.name]) deps order fuel hrest hnd' hvis' hord'
        (Nat.lt_of_succ_lt_succ hfuel)
    have hnotin : cfg.name ∉ order ++ ((rest.map Config.name).reverse ++ [p.name]) := by
      intro hmem
      rcases List.mem_append.mp hmem with h | h
      · exact hord cfg.name (List.mem_cons_self _ _) h
      · rcases List.mem_append.mp h with h2 | h2
        · exact hne2 (List.mem_reverse.mp h2)
        · exact hne1 (List.mem_singleton.mp h2)
    refine ⟨v2, d2 ++ [p.name], [DepTree.node p.name t2], ?_⟩
    simp only [buildDep, if_neg h1, hinh, hget, heq, if_neg hnotin,
      List.map_cons, List.reverse_cons, List.append_assoc]

/-- C7 amended, proved: for every acyclic inheritance chain — the target's
ancestors `anc` listed from the immediate parent up to the root, all with
distinct names — `get_dependencies` succeeds and its `resolution_order` is
the ordered list of identifiers from the most distant ancestor down to AND
INCLUDING the requested node; for a chain of n configurations (ancestors
plus target) the list has length n. -/
theorem get_dependencies_resolution_order_C7 (store : List (String × Config))
    (target : Config) (anc : List Config)
    (hchain : chainFrom store target anc)
    (hnd : (target.name :: anc.map Config.name).Nodup) :
    ∃ r, getDependencies store target = Except.ok r ∧
      r.resolution_order = (anc.map Config.name).reverse ++ [target.name] ∧
      r.resolution_order.length = anc.length + 1 := by
  have hsub : anc.map Config.name ⊆ store.map Prod.fst := by
    intro n hn
    obtain ⟨p, hp, rfl⟩ := List.mem_map.mp hn
    exact aget_mem_keys _ (chainFrom_mem_store hchain p hp)
  have hlen : anc.length ≤ store.length := by
    have h := (List.subperm_of_subset ((List.nodup_cons.mp hnd).2) hsub).length_le
    simpa using h
  obtain ⟨v, d, t, heq⟩ :=
    buildDep_chain store anc target [] [] [] (store.length + 2) hchain hnd
      (fun n _ hmem => List.not_mem_nil n hmem)
      (fun n _ hmem => List.not_mem_nil n hmem)
      (by omega)
  refine ⟨⟨target.name, target.inherits, d,
      DepTree.node target.name t, [] ++ ((anc.map Config.name).reverse ++ [target.name]),
      []⟩, ?_, ?_, ?_⟩
  · unfold getDependencies
    rw [heq]
  · simp
  · simp [Nat.add_comm]

end DepResolver

open DepResolver in
/-- C7 counterexample: for the one-ancestor chain `t inherits p` (`p` a
root), `get_dependencies` returns the `resolution_order` `["p", "t"]` — the
requested node `t` itself is included, contradicting the claim that the
order runs only from the most distant ancestor to the immediate parent,
excluding the requested node (which here would be `["p"]`, of length 1). -/
theorem get_dependencies_includes_target_C7_cx :
    (match getDependencies [("p", ⟨"p", none⟩)] ⟨"t", some "p"⟩ with
      | Except.ok r => some r.resolution_order
      | Except.error _ => none) = some ["p", "t"] ∧
    some ["p", "t"] ≠ some ["p"] := ⟨rfl, by decide⟩

open DepResolver in
/-- C7 witness: the amended theorem applied to the concrete chain
`t inherits p`, `p` a root record of the store. -/
theorem get_dependencies_resolution_order_C7_witness :
    ∃ r, getDependencies [("p", ⟨"p", none⟩)] ⟨"t", some "p"⟩ = Except.ok r ∧
      r.resolution_order = ([⟨"p", none⟩].map Config.name).reverse ++ ["t"] ∧
      r.resolution_order.length = [(⟨"p", none⟩ : Config)].length + 1 :=
  get_dependencies_resolution_order_C7 [("p", ⟨"p", none⟩)] ⟨"t", some "p"⟩
    [⟨"p", none⟩] ⟨rfl, rfl, rfl⟩ (by decide)

open SlicerClient in
/-- C2: a three-member closure in which the second downloaded artifact fails
digest verification.  `download_profile` returns the empty list (the abort),
but the root artifact written before the mismatch was observed remains
persisted on disk — the operation does not leave zero files.  Here `r`
depends on `d` (with `e` a further dependency never reached), `r.json`
verifies under the constant hash `h` and `d.json` is published with the
non-matching digest `x`. -/
theorem download_profile_mismatch_leaves_files_C2 :
    (match downloadProfile
        [("r", ⟨"r", "root", some "s", "r.json", ["d"]⟩),
         ("d", ⟨"d", "dep", some "s", "d.json", ["e"]⟩),
         ("e", ⟨"e", "dep2", some "s", "e.json", []⟩)]
        [("r.json", "sha256:h"), ("d.json", "sha256:x"), ("e.json", "sha256:h")]
        (fun _ => some [1]) (fun _ => "h") "cache" "r" 6 with
      | Except.ok (retval, st) => some (retval, st.disk)
      | Except.error _ => none) = some ([], [("cache/r.json", [1])]) ∧
    [("cache/r.json", ([1] : SlicerClient.Bytes))] ≠ [] :=
  ⟨rfl, by decide⟩

open SlicerClient in
/-- C8 counterexample: an unqualified lookup whose name and slicer match
records in the two namespaces `A` and `B` returns `None` — the same value
returned when nothing matches at all — so `find_profile` does not return an
`Ambiguous` result carrying the candidate pairs (the candidates are only
printed). -/
theorem find_profile_ambiguous_returns_none_C8_cx :
    (findProfile
        [some ⟨some "A", some [⟨"u1", "p", some "s", "a.json", []⟩], []⟩,
         some ⟨some "B", some [⟨"u2", "p", some "s", "b.json", []⟩], []⟩]
        "p" "s").1 = none ∧
    (foundProfiles
        [some ⟨some "A", some [⟨"u1", "p", some "s", "a.json", []⟩], []⟩,
         some ⟨some "B", some [⟨"u2", "p", some "s", "b.json", []⟩], []⟩]
        "p" "s").length = 2 ∧
    (findProfile [] "p" "s").1 = none :=
  ⟨rfl, rfl, rfl⟩

open SlicerClient in
/-- C8 amended, proved: an unqualified lookup matching two or more
repositories returns `None` while surfacing every candidate
`(namespace, record)` pair only through the printed disambiguation hints;
a lookup qualified as `namespace/name` returns the first record whose
namespace, stripped name and slicer all match, or `None`. -/
theorem find_profile_amended_C8 (clients : List (Option Manifest))
    (pname slicer : String) :
    (splitFirst '/' pname = none →
      2 ≤ (foundProfiles clients pname slicer).length →
      findProfile clients pname slicer =
        (none, (foundProfiles clients pname slicer).map
          (fun nr => (nr.1.getD "None", nr.2.name)))) ∧
    (∀ ns name, splitFirst '/' pname = some (ns, name) →
      findProfile clients pname slicer =
        (firstQualified clients ns.trim name.trim slicer, [])) := by
  constructor
  · intro h1 h2
    unfold findProfile
    rw [h1]
    cases hfp : foundProfiles clients pname slicer with
    | nil => rw [hfp] at h2; simp at h2
    | cons a tl =>
      cases tl with
      | nil => rw [hfp] at h2; simp at h2
      | cons b tl2 => rfl
  · intro ns name h
    unfold findProfile
    rw [h]

open SlicerClient in
/-- C8 witness: the amended ambiguous branch applied to the two-namespace
configuration of the counterexample input shape with a third, non-matching
repository present. -/
theorem find_profile_amended_C8_witness :
    findProfile
        [some ⟨some "X", some [⟨"u1", "q", some "s", "a.json", []⟩], []⟩,
         some ⟨some "Y", some [⟨"u2", "q", some "s", "b.json", []⟩], []⟩,
         some ⟨some "Z", some [⟨"u3", "other", some "s", "c.json", []⟩], []⟩]
        "q" "s" =
      (none, (foundProfiles
        [some ⟨some "X", some [⟨"u1", "q", some "s", "a.json", []⟩], []⟩,
         some ⟨some "Y", some [⟨"u2", "q", some "s", "b.json", []⟩], []⟩,
         some ⟨some "Z", some [⟨"u3", "other", some "s", "c.json", []⟩], []⟩]
        "q" "s").map (fun nr => (nr.1.getD "None", nr.2.name))) :=
  (find_profile_amended_C8 _ "q" "s").1 rfl (by decide)

namespace SlicerClient

theorem downloadStep_verified_source (index : List (String × Profile))
    (checksums : List (String × String)) (fetch : String → Option Bytes)
    (sha256hex : Bytes → String) (cacheDir uuid : String)
    (st st' : DownloadState) (pth : String)
    (h : downloadStep index checksums fetch sha256hex cacheDir uuid st = StepOut.next st' ∨
         ∃ r, downloadStep index checksums fetch sha256hex cacheDir uuid st = StepOut.ret r st')
    (hm : pth ∈ st'.verified) :
    pth ∈ st.verified ∨ ∃ c, aget checksums pth = some c ∧ c ≠ "" := by
  simp only [downloadStep] at h
  by_cases h1 : uuid ∈ st.processed
  · simp only [if_pos h1] at h
    rcases h with h | ⟨r, h⟩
    · cases h; exact Or.inl hm
    · cases h
  · simp only [if_neg h1] at h
    cases haget : aget index uuid with
    | none =>
      simp only [haget] at h
      rcases h with h | ⟨r, h⟩
      · cases h; exact Or.inl hm
      · cases h
    | some profile =>
      simp only [haget] at h
      cases hf : fetch profile.path with
      | none =>
        simp only [hf] at h
        rcases h with h | ⟨r, h⟩
        · cases h; exact Or.inl hm
        · cases h
      | some content =>
        simp only [hf] at h
        cases hcs : aget checksums profile.path with
        | none =>
          simp only [hcs] at h
          rcases h with h | ⟨r, h⟩
          · cases h; exact Or.inl hm
          · cases h
        | some expected =>
          simp only [hcs] at h
          by_cases he : expected = ""
          · simp only [if_pos he] at h
            rcases h with h | ⟨r, h⟩
            · cases h; exact Or.inl hm
            · cases h
          · simp only [if_neg he] at h
            cases hv : verifyChecksum sha256hex content expected with
            | error e =>
              simp only [hv] at h
              rcases h with h | ⟨r, h⟩ <;> cases h
            | ok b =>
              simp only [hv] at h
              cases b with
              | true =>
                rcases h with h | ⟨r, h⟩
                · cases h
                  rcases List.mem_append.mp hm with hmm | hmm
                  · exact Or.inl hmm
                  · refine Or.inr ⟨expected, ?_, he⟩
                    rw [List.mem_singleton.mp hmm]
                    exact hcs
                · cases h
              | false =>
                rcases h with h | ⟨r, h⟩
                · cases h
                · cases h
                  rcases List.mem_append.mp hm with hmm | hmm
                  · exact Or.inl hmm
                  · refine Or.inr ⟨expected, ?_, he⟩
                    rw [List.mem_singleton.mp hmm]
                    exact hcs

theorem downloadLoop_verified_source (index : List (String × Profile))
    (checksums : List (String × String)) (fetch : String → Option Bytes)
    (sha256hex : Bytes → String) (cacheDir : String) :
    ∀ (fuel : Nat) (st : DownloadState) (files : List String) (stf : DownloadState),
      downloadLoop index checksums fetch sha256hex cacheDir fuel st =
        Except.ok (files, stf) →
      ∀ pth ∈ stf.verified,
        pth ∈ st.verified ∨ ∃ c, aget checksums pth = some c ∧ c ≠ "" := by
  intro fuel
  induction fuel with
  | zero =>
    intro st files stf h pth hm
    simp only [downloadLoop] at h
    cases hq : st.queue with
    | nil =>
      simp only [hq] at h
      cases h
      exact Or.inl hm
    | cons u rest =>
      simp only [hq] at h
      cases h
  | succ fuel ih =>
    intro st files stf h pth hm
    simp only [downloadLoop] at h
    cases hq : st.queue with
    | nil =>
      simp only [hq] at h
      cases h
      exact Or.inl hm
    | cons uuid rest =>
      simp only [hq] at h
      cases hstep : downloadStep index checksums fetch sha256hex cacheDir uuid
          { st with queue := rest } with
      | ret r st' =>
        simp only [hstep] at h
        cases h
        exact downloadStep_verified_source index checksums fetch sha256hex cacheDir
          uuid { st with queue := rest } _ pth (Or.inr ⟨_, hstep⟩) hm
      | err e =>
        simp only [hstep] at h
        cases h
      | next st' =>
        simp only [hstep] at h
        rcases ih st' files stf h pth hm with hl | hr
        · exact downloadStep_verified_source index checksums fetch sha256hex cacheDir
            uuid { st with queue := rest } st' pth (Or.inl hstep) hl
        · exact Or.inr hr

end SlicerClient

open SlicerClient in
/-- C9 counterexample: the requested root artifact declares the dependency
`d`, whose identifier is absent from the manifest index; `download_profile`
does not return a typed error for the whole operation — it skips the missing
member and returns the list containing only the file that did download. -/
theorem download_profile_partial_success_C9_cx :
    (match downloadProfile [("r", ⟨"r", "root", some "s", "r.json", ["d"]⟩)]
        [] (fun _ => some [1]) (fun _ => "h") "cache" "r" 4 with
      | Except.ok (files, st) => some (files, st.disk)
      | Except.error _ => none) =
      some (["cache/r.json"], [("cache/r.json", [1])]) ∧
    aget [("r", (⟨"r", "root", some "s", "r.json", ["d"]⟩ : Profile))] "d" = none :=
  ⟨rfl, rfl⟩

open SlicerClient in
/-- C9 amended, proved: a closure member whose identifier is absent from the
manifest index is skipped with a warning and the loop continues with the
state unchanged; a member whose fetch fails is skipped (its declared
dependencies still enqueued) without being marked processed; in both cases
`download_profile` goes on to return the list of files that did download —
a partial result — rather than a typed error for the whole operation. -/
theorem download_step_skips_failures_C9 (index : List (String × Profile))
    (checksums : List (String × String)) (fetch : String → Option Bytes)
    (sha256hex : Bytes → String) (cacheDir uuid : String)
    (st : DownloadState) (p : Profile) :
    (uuid ∉ st.processed → aget index uuid = none →
      downloadStep index checksums fetch sha256hex cacheDir uuid st = StepOut.next st) ∧
    (uuid ∉ st.processed → aget index uuid = some p → fetch p.path = none →
      downloadStep index checksums fetch sha256hex cacheDir uuid st =
        StepOut.next { st with queue := enqueueDeps p.dependencies st.processed st.queue }) := by
  constructor
  · intro h1 h2
    simp only [downloadStep, if_neg h1, h2]
  · intro h1 h2 h3
    simp only [downloadStep, if_neg h1, h2, h3]

open SlicerClient in
/-- C9 witness: the missing-identifier skip applied to a concrete state with
an empty index. -/
theorem download_step_skips_failures_C9_witness :
    downloadStep [] [] (fun _ => some [1]) (fun _ => "h") "cache" "x"
        ⟨["y"], ["z"], [], [], []⟩ =
      StepOut.next ⟨["y"], ["z"], [], [], []⟩ :=
  (download_step_skips_failures_C9 [] [] (fun _ => some [1]) (fun _ => "h")
    "cache" "x" ⟨["y"], ["z"], [], [], []⟩ ⟨"", "", none, "", []⟩).1 (by decide) rfl

open SlicerClient in
/-- C10: a closure member whose storage path has no entry in the manifest's
checksums mapping is fetched and persisted without any digest verification:
the loop body writes the fetched bytes to the destination, appends it to the
downloaded files and marks the member processed while the verification log
stays unchanged; and, over any whole run of the loop, every path that was
ever passed to `_verify_checksum` has a (truthy) entry in the checksums
mapping — so an uncheck-summed member is never verified. -/
theorem download_no_checksum_persists_unverified_C10
    (index : List (String × Profile)) (checksums : List (String × String))
    (fetch : String → Option Bytes) (sha256hex : Bytes → String)
    (cacheDir uuid : String) (st : DownloadState) (p : Profile) (content : Bytes)
    (h1 : uuid ∉ st.processed) (h2 : aget index uuid = some p)
    (h3 : aget checksums p.path = none) (h4 : fetch p.path = some content) :
    downloadStep index checksums fetch sha256hex cacheDir uuid st =
      StepOut.next
        { queue := enqueueDeps p.dependencies st.processed st.queue
          processed := st.processed ++ [uuid]
          files := st.files ++ [cacheDir ++ "/" ++ p.path]
          disk := aset st.disk (cacheDir ++ "/" ++ p.path) content
          verified := st.verified } ∧
    (∀ (fuel : Nat) (st0 stf : DownloadState) (files : List String),
      downloadLoop index checksums fetch sha256hex cacheDir fuel st0 =
        Except.ok (files, stf) →
      ∀ pth ∈ stf.verified,
        pth ∈ st0.verified ∨ ∃ c, aget checksums pth = some c ∧ c ≠ "") := by
  constructor
  · simp only [downloadStep, if_neg h1, h2, h3, h4]
  · intro fuel st0 stf files h pth hm
    exact downloadLoop_verified_source index checksums fetch sha256hex cacheDir
      fuel st0 files stf h pth hm

open SlicerClient in
/-- C10 witness: the persist-without-verification step applied to the
initial state of a concrete download whose only profile has no checksum
entry. -/
theorem download_no_checksum_persists_unverified_C10_witness :
    downloadStep [("r", ⟨"r", "root", some "s", "r.json", []⟩)] []
        (fun _ => some [7]) (fun _ => "h") "cache" "r" ⟨[], [], [], [], []⟩ =
      StepOut.next
        { queue := enqueueDeps [] [] []
          processed := [] ++ ["r"]
          files := [] ++ ["cache" ++ "/" ++ "r.json"]
          disk := aset [] ("cache" ++ "/" ++ "r.json") [7]
          verified := [] } :=
  (download_no_checksum_persists_unverified_C10
    [("r", ⟨"r", "root", some "s", "r.json", []⟩)] [] (fun _ => some [7])
    (fun _ => "h") "cache" "r" ⟨[], [], [], [], []⟩ ⟨"r", "root", some "s", "r.json", []⟩
    [7] (by decide) rfl rfl rfl).1
